import Mathlib

/-!
# GWAS data-preparation pipeline, verified

A shallow embedding of the data-preparation and result-writing stages of the
notebook `2_GWAS.ipynb` (phenotype loading, accession alignment across the
phenotype / genotype / kinship sources, minor-allele-frequency filtering, and
the two CSV result writers).  Matrices are embedded as lists of rows; numpy
integer arrays become `List ℤ`, real-valued arrays become `List ℚ`; accession
identifiers are an opaque type `α` with decidable equality.
-/

namespace GWAS

/-- Python `list.sort()` on a list of natural-number indices (ascending). -/
def pysort (l : List Nat) : List Nat := List.insertionSort (· ≤ ·) l

section Aligner

variable {α : Type} [DecidableEq α] [Inhabited α]

/-- `acn_genotyped = [acn for acn in pheno.index if acn in geno_hdf['accessions'][:]]`:
the phenotyped accessions that also occur in the genotype source, in phenotype order. -/
def acn_genotyped (phenoIdx genoAcc : List α) : List α :=
  phenoIdx.filter (fun acn => decide (acn ∈ genoAcc))

/-- `np.where(accessions == acn)[0][0]`: index of the first occurrence of `acn`
in `accessions` (the code only evaluates this when `acn` is present). -/
def npWhereFirst (accessions : List α) (acn : α) : Nat :=
  accessions.findIdx (fun a => decide (a = acn))

/-- `acn_indices = [np.where(geno_hdf['accessions'][:] == acn)[0][0] for acn in pheno.index]`
followed by `acn_indices.sort()`; at that point `pheno.index` is `acn_genotyped`. -/
def acn_indices (phenoIdx genoAcc : List α) : List Nat :=
  pysort ((acn_genotyped phenoIdx genoAcc).map (npWhereFirst genoAcc))

/-- `acn_order = geno_hdf['accessions'][acn_indices]`. -/
def acn_order (phenoIdx genoAcc : List α) : List α :=
  (acn_indices phenoIdx genoAcc).map (fun i => genoAcc.getD i default)

/-- Row lookup in the phenotype table (`pheno.loc[acn]`, value column). -/
def lookupD (pheno : List (α × ℚ)) (acn : α) : ℚ :=
  match pheno.find? (fun r => decide (r.1 = acn)) with
  | some r => r.2
  | none => 0

/-- Phenotype matrix `Y` of §3a: `pheno = pheno.loc[acn_order]; Y = pheno.to_numpy()`.
One row per accession of `acn_order`, each row a single trait value. -/
def Ymat (pheno : List (α × ℚ)) (genoAcc : List α) : List (List ℚ) :=
  (acn_order (pheno.map Prod.fst) genoAcc).map (fun a => [lookupD pheno a])

end Aligner

/-- `G = geno_hdf['snps'][:, acn_indices]`: SNP-major matrix restricted to the
selected accession columns. -/
def Gsub (snps : List (List ℤ)) (idx : List Nat) : List (List ℤ) :=
  snps.map (fun row => idx.map (fun i => row.getD i 0))

/-- `AC1 = G.sum(axis = 1)`. -/
def AC1 (G : List (List ℤ)) : List ℤ := G.map (fun row => row.sum)

/-- `AC0 = G.shape[1] - AC1`; `n` is `G.shape[1]`, the number of accession columns. -/
def AC0 (n : Nat) (G : List (List ℤ)) : List ℤ := (AC1 G).map (fun c => (n : ℤ) - c)

/-- `MAC = np.min(np.vstack((AC0, AC1)), axis = 0)`. -/
def MAC (n : Nat) (G : List (List ℤ)) : List ℤ := List.zipWith min (AC0 n G) (AC1 G)

/-- `MAF = MAC / G.shape[1]`. -/
def MAF (n : Nat) (G : List (List ℤ)) : List ℚ :=
  (MAC n G).map (fun c : ℤ => (c : ℚ) / (n : ℚ))

/-- The configured minor-allele-frequency cutoff, `MAF_thrs = 0.05`. -/
def MAF_thrs : ℚ := 5 / 100

/-- `SNP_indices = np.where(MAF >= MAF_thrs)[0]`: positions (ascending) of the
SNP rows whose minor allele frequency reaches the threshold. -/
def SNP_indices (thr : ℚ) (n : Nat) (G : List (List ℤ)) : List Nat :=
  (List.range G.length).filter (fun i => decide (thr ≤ (MAF n G).getD i 0))

/-- `SNPs_MAF = MAF[SNP_indices]`. -/
def SNPs_MAF (thr : ℚ) (n : Nat) (G : List (List ℤ)) : List ℚ :=
  (SNP_indices thr n G).map (fun i => (MAF n G).getD i 0)

/-- `G = G[SNP_indices, :]`. -/
def Gfiltered (thr : ℚ) (n : Nat) (G : List (List ℤ)) : List (List ℤ) :=
  (SNP_indices thr n G).map (fun i => G.getD i [])

/-- numpy `transpose` of a SNP × accession matrix with `n` accession columns
(numpy arrays carry their shape, so a matrix with zero rows still transposes
to `n` empty rows). -/
def npTranspose (n : Nat) (m : List (List ℤ)) : List (List ℤ) :=
  (List.range n).map (fun j => m.map (fun row => row.getD j 0))

section KinshipAndPipeline

variable {α : Type} [DecidableEq α] [Inhabited α]

/-- §3c: `acn_indices = [np.where(kin_hdf['accessions'][:] == acn)[0][0] for acn in pheno.index]`
followed by `acn_indices.sort()`; at that point `pheno.index` is `acn_order`. -/
def kin_indices (phenoIdx genoAcc kinAcc : List α) : List Nat :=
  pysort ((acn_order phenoIdx genoAcc).map (npWhereFirst kinAcc))

/-- `m[idx, :][:, idx]`: numpy fancy-indexed square submatrix. -/
def submatrix (m : List (List ℚ)) (idx : List Nat) : List (List ℚ) :=
  idx.map (fun i => idx.map (fun j => (m.getD i []).getD j 0))

/-- Kinship matrix `K` of §3c. -/
def Kmat (phenoIdx genoAcc kinAcc : List α) (kinship : List (List ℚ)) : List (List ℚ) :=
  submatrix kinship (kin_indices phenoIdx genoAcc kinAcc)

/-- Genotype matrix `G` of §3b after accession subsetting, MAF filtering and the
final transpose to accession × SNP orientation. -/
def Gmat (phenoIdx genoAcc : List α) (snps : List (List ℤ)) (thr : ℚ) : List (List ℤ) :=
  npTranspose (acn_indices phenoIdx genoAcc).length
    (Gfiltered thr (acn_indices phenoIdx genoAcc).length
      (Gsub snps (acn_indices phenoIdx genoAcc)))

end KinshipAndPipeline

/-- `bisect.bisect` (= `bisect_right`) applied to a sorted boundary list:
extensionally, the number of elements `≤ x`. -/
def bisect (a : List ℤ) (x : ℤ) : Nat := (a.filter (fun b => decide (b ≤ x))).length

/-- `chromosomes = [bisect(chr_index[:, 1], snp_index) + 1 for snp_index in SNP_indices]`,
where `chrEnds = chr_index[:, 1]` is the column of chromosome upper boundaries. -/
def chromosomes (chrEnds : List ℤ) (snpIdx : List Nat) : List Nat :=
  snpIdx.map (fun s : Nat => bisect chrEnds (s : ℤ) + 1)

/-- `positions = [positions_all[snp] for snp in SNP_indices]`. -/
def positionsOf (positions_all : List ℤ) (snpIdx : List Nat) : List ℤ :=
  snpIdx.map (fun s => positions_all.getD s 0)

/-- Python `zip` of five lists (truncates to the shortest). -/
def zip5 {A B C D E : Type} (l1 : List A) (l2 : List B) (l3 : List C) (l4 : List D)
    (l5 : List E) : List (A × B × C × D × E) :=
  List.zipWith (fun x r => (x, r)) l1
    (List.zipWith (fun x r => (x, r)) l2
      (List.zipWith (fun x r => (x, r)) l3 (List.zip l4 l5)))

/-- The in-memory image of one written CSV file: the header, the data rows
(one tuple per row, fields in column order), and whether a row-index column
was written (`to_csv(..., index = False)` sets it to `false`). -/
structure GwasTable where
  columns : List String
  rows : List (Nat × ℤ × ℚ × ℚ × ℚ)
  hasIndexColumn : Bool
deriving DecidableEq, Repr

/-- §5b writer (scan with K correction): builds the DataFrame
`pd.DataFrame(list(zip(chromosomes, positions, pvalues, mafs, effsizes)), columns = ['chr', 'pos', 'pvalue', 'maf', 'GVE'])`
and saves it with `index = False`. -/
def writer_corrected (chrEnds positions_all : List ℤ) (snpIdx : List Nat)
    (mafs pvalues effsizes : List ℚ) : GwasTable :=
  { columns := ["chr", "pos", "pvalue", "maf", "GVE"]
    rows := zip5 (chromosomes chrEnds snpIdx) (positionsOf positions_all snpIdx)
      pvalues mafs effsizes
    hasIndexColumn := false }

/-- §5d writer (scan without K correction): recomputes chromosomes, positions and
mafs by the same expressions and saves the analogous DataFrame with `index = False`. -/
def writer_nc (chrEnds positions_all : List ℤ) (snpIdx : List Nat)
    (mafs pvalues effsizes : List ℚ) : GwasTable :=
  { columns := ["chr", "pos", "pvalue", "maf", "GVE"]
    rows := zip5 (chromosomes chrEnds snpIdx) (positionsOf positions_all snpIdx)
      pvalues mafs effsizes
    hasIndexColumn := false }

/-- A parsed trait-column cell as produced by `pd.read_csv`: a recognized
missing marker (empty field, `NA`, `NaN`, ...) becomes `nan`; numeric text
becomes a number; any other text is kept as an object (string) value. -/
inductive Cell : Type
  | nan : Cell
  | num : ℚ → Cell
  | obj : String → Cell
deriving DecidableEq, Repr

/-- `pheno.dropna()`: drop exactly the rows whose trait value is missing (NaN);
every other row, numeric or not, is kept, and the call never fails. -/
def dropna {β : Type} (rows : List (β × Cell)) : List (β × Cell) :=
  rows.filter (fun r => decide (r.2 ≠ Cell.nan))

/-- Whether a parsed cell holds a numeric value. -/
def Cell.isNum : Cell → Bool
  | Cell.num _ => true
  | _ => false

/-- The bucket rule exactly as the specification words it: the smallest
1-indexed chromosome index `c` such that the SNP global index is `≤ boundary[c]`
(`0`-indexed: position of the first boundary end that is `≥ x`, plus one). -/
def specChrLe (chrEnds : List ℤ) (x : ℤ) : Nat :=
  chrEnds.findIdx (fun b => decide (x ≤ b)) + 1

/-- The reported chromosome at row `j` is the least 1-indexed bucket whose upper
boundary strictly exceeds the SNP global index. -/
def ChrBucketLeastStrict (chrEnds : List ℤ) (snpIdx : List Nat) (j : Nat) : Prop :=
  1 ≤ (chromosomes chrEnds snpIdx).getD j 0 ∧
  (chromosomes chrEnds snpIdx).getD j 0 ≤ chrEnds.length ∧
  ((snpIdx.getD j 0 : ℤ)) < chrEnds.getD ((chromosomes chrEnds snpIdx).getD j 0 - 1) 0 ∧
  ∀ c, 1 ≤ c → c ≤ chrEnds.length → ((snpIdx.getD j 0 : ℤ)) < chrEnds.getD (c - 1) 0 →
    (chromosomes chrEnds snpIdx).getD j 0 ≤ c

/-- Per-row minor allele frequency exactly as the code computes it from the
allele counts: `min(N - sum(row), sum(row)) / N`. -/
def rowMAF (n : Nat) (row : List ℤ) : ℚ :=
  ((min ((n : ℤ) - row.sum) row.sum : ℤ) : ℚ) / (n : ℚ)

/-- Number of alternate-allele calls (entries equal to 1) in a SNP row. -/
def onesCount (row : List ℤ) : Nat := row.countP (fun x => decide (x = 1))

/-- The spec formula for the minor allele frequency of a row with `k` ones out
of `N` binary calls: `min(k, N - k) / N`. -/
def specRowMAF (n : Nat) (row : List ℤ) : ℚ :=
  ((min (onesCount row) (n - onesCount row) : ℕ) : ℚ) / (n : ℚ)

/-! ### General helper lemmas -/

theorem getD_map_lt {β γ : Type _} (f : β → γ) (l : List β) (j : Nat) (hj : j < l.length)
    (d : β) (d2 : γ) : (l.map f).getD j d2 = f (l.getD j d) := by
  rw [List.getD_eq_getElem?_getD, List.getElem?_map, List.getElem?_eq_getElem hj,
    List.getD_eq_getElem?_getD, List.getElem?_eq_getElem hj]
  rfl

theorem getD_lt_mem {β : Type _} (l : List β) (j : Nat) (hj : j < l.length) (d : β) :
    l.getD j d ∈ l := by
  rw [List.getD_eq_getElem?_getD, List.getElem?_eq_getElem hj]
  exact List.getElem_mem hj

/-! ### Lemmas about `bisect` on a sorted boundary list -/

theorem bisect_cons (b : ℤ) (e : List ℤ) (x : ℤ) :
    bisect (b :: e) x = (if b ≤ x then 1 else 0) + bisect e x := by
  by_cases h : b ≤ x <;> simp [bisect, List.filter_cons, h, Nat.add_comm]

theorem bisect_eq_zero_of_lt (b : ℤ) (e : List ℤ) (x : ℤ)
    (hs : (b :: e).Pairwise (· ≤ ·)) (hx : x < b) : bisect (b :: e) x = 0 := by
  have hnil : (b :: e).filter (fun y => decide (y ≤ x)) = [] := by
    rw [List.filter_eq_nil_iff]
    intro a ha
    rcases List.mem_cons.mp ha with rfl | ha
    · simpa using not_le.mpr hx
    · have hba : b ≤ a := (List.pairwise_cons.mp hs).1 a ha
      simpa using not_le.mpr (lt_of_lt_of_le hx hba)
  simp [bisect, hnil]

/-- On a sorted boundary list, `bisect e x` counts the buckets whose upper end is
`≤ x`: every earlier boundary is `≤ x` and the boundary at the result (if any)
strictly exceeds `x`. -/
theorem bisect_sorted_spec (e : List ℤ) (x : ℤ) (hs : e.Pairwise (· ≤ ·)) :
    bisect e x ≤ e.length ∧
    (∀ k, k < bisect e x → e.getD k 0 ≤ x) ∧
    (bisect e x < e.length → x < e.getD (bisect e x) 0) := by
  induction e with
  | nil => simp [bisect]
  | cons b e ih =>
    have hs' : e.Pairwise (· ≤ ·) := (List.pairwise_cons.mp hs).2
    obtain ⟨ih1, ih2, ih3⟩ := ih hs'
    by_cases hbx : b ≤ x
    · have hb : bisect (b :: e) x = bisect e x + 1 := by
        rw [bisect_cons]; simp [hbx, Nat.add_comm]
      refine ⟨?_, ?_, ?_⟩
      · rw [hb]; simpa using Nat.succ_le_succ ih1
      · intro k hk
        rw [hb] at hk
        match k with
        | 0 => simpa using hbx
        | k + 1 =>
          rw [List.getD_cons_succ]
          exact ih2 k (by omega)
      · intro hlt
        rw [hb] at hlt ⊢
        rw [List.getD_cons_succ]
        exact ih3 (by simpa using Nat.lt_of_succ_lt_succ hlt)
    · have hb : bisect (b :: e) x = 0 := bisect_eq_zero_of_lt b e x hs (not_le.mp hbx)
      refine ⟨by omega, by omega, ?_⟩
      intro _
      rw [hb, List.getD_cons_zero]
      exact not_le.mp hbx

theorem bisect_lt_length_of_exists (e : List ℤ) (x : ℤ) (hs : e.Pairwise (· ≤ ·))
    (hex : ∃ b ∈ e, x < b) : bisect e x < e.length := by
  obtain ⟨b, hb, hxb⟩ := hex
  obtain ⟨k, hk, rfl⟩ := List.mem_iff_getElem.mp hb
  by_contra hge
  have hk2 : k < bisect e x := lt_of_lt_of_le hk (le_of_not_lt hge)
  have hle := (bisect_sorted_spec e x hs).2.1 k hk2
  rw [List.getD_eq_getElem?_getD, List.getElem?_eq_getElem hk] at hle
  exact absurd hxb (not_lt.mpr hle)

/-! ### Claim theorems (C2, C9, C10) -/

/-- C2, counterexample: the spec formula "smallest chromosome index `c` such that
SNP global index `≤ boundary[c]`" disagrees with the code at a SNP index that
equals a chromosome's upper boundary.  With boundary ends `[10, 25, 40]` the
code reports chromosome 2 for SNP index 10, while the spec formula yields 1. -/
theorem C2_chromosome_counterexample :
    ¬ ((chromosomes [10, 25, 40] [10]).getD 0 0 = specChrLe [10, 25, 40] 10) := by
  decide

/-- C2 (amended): the reported chromosome number is the smallest 1-indexed
chromosome index `c` such that the SNP's global index is *strictly less than*
`boundary[c]` (for a monotone boundary table and a SNP index below the last
boundary); the spec's concrete examples (index 12 ↦ chromosome 2, 0 ↦ 1,
39 ↦ 3 for boundary table `[[0,10],[10,25],[25,40]]`) hold as stated. -/
theorem C2_chromosome_bucket (chrEnds : List ℤ) (snpIdx : List Nat) (j : Nat)
    (hs : chrEnds.Pairwise (· ≤ ·)) (hj : j < snpIdx.length)
    (hex : ∃ b ∈ chrEnds, ((snpIdx.getD j 0 : ℤ)) < b) :
    chromosomes [10, 25, 40] [12, 0, 39] = [2, 1, 3] ∧
    ChrBucketLeastStrict chrEnds snpIdx j := by
  refine ⟨by decide, ?_⟩
  set x : ℤ := (snpIdx.getD j 0 : ℤ) with hx
  have hchr : (chromosomes chrEnds snpIdx).getD j 0 = bisect chrEnds x + 1 := by
    unfold chromosomes
    rw [getD_map_lt _ snpIdx j hj 0]
  have hblt : bisect chrEnds x < chrEnds.length := bisect_lt_length_of_exists _ _ hs hex
  obtain ⟨_, h2, h3⟩ := bisect_sorted_spec chrEnds x hs
  refine ⟨by omega, by omega, ?_, ?_⟩
  · rw [hchr]
    simp only [Nat.add_sub_cancel]
    exact h3 hblt
  · intro c hc1 _ hcx
    rw [hchr]
    by_contra hlt
    have hcb : c - 1 < bisect chrEnds x := by omega
    exact absurd hcx (not_lt.mpr (h2 (c - 1) hcb))

/-- C2 witness: the amended bucket rule instantiated at boundary table
`[[0,10],[10,25],[25,40]]` and SNP index 12. -/
theorem C2_chromosome_bucket_witness :
    chromosomes [10, 25, 40] [12, 0, 39] = [2, 1, 3] ∧
    ChrBucketLeastStrict [10, 25, 40] [12] 0 :=
  C2_chromosome_bucket [10, 25, 40] [12] 0 (by decide) (by decide) (by decide)

/-- C9, counterexample: `dropna` does not drop every non-numeric row — a row
whose trait cell is arbitrary text (not a recognized missing marker) survives. -/
theorem C9_dropna_counterexample :
    ¬ (∀ r ∈ dropna [((1 : Nat), Cell.num 5), (2, Cell.nan), (3, Cell.obj "x")],
        r.2.isNum = true) := by
  decide

/-- C9 (amended): rows whose trait value is missing (a parsed NaN) are silently
dropped before alignment — `dropna` always succeeds, keeps exactly the
non-missing rows in their original order, and keeps non-numeric text values
that are not recognized missing markers. -/
theorem C9_dropna_missing {β : Type} (rows : List (β × Cell)) :
    List.Sublist (dropna rows) rows ∧
    (∀ r, r ∈ dropna rows ↔ r ∈ rows ∧ r.2 ≠ Cell.nan) := by
  refine ⟨List.filter_sublist rows, ?_⟩
  intro r
  simp [dropna]

/-- C10: subsetting a symmetric square kinship matrix by one index list on both
axes yields a symmetric matrix. -/
theorem C10_submatrix_symmetric (kinship : List (List ℚ)) (idx : List Nat)
    (hsym : ∀ i ∈ List.range kinship.length, ∀ j ∈ List.range kinship.length,
      (kinship.getD i []).getD j 0 = (kinship.getD j []).getD i 0)
    (hidx : ∀ i ∈ idx, i < kinship.length)
    (a b : Nat) (ha : a < idx.length) (hb : b < idx.length) :
    ((submatrix kinship idx).getD a []).getD b 0 =
      ((submatrix kinship idx).getD b []).getD a 0 := by
  have hrow : ∀ (u v : Nat), u < idx.length → v < idx.length →
      ((submatrix kinship idx).getD u []).getD v 0 =
        (kinship.getD (idx.getD u 0) []).getD (idx.getD v 0) 0 := by
    intro u v hu hv
    unfold submatrix
    rw [getD_map_lt _ idx u hu 0]
    rw [getD_map_lt _ idx v hv 0]
  rw [hrow a b ha hb, hrow b a hb ha]
  exact hsym _ (List.mem_range.mpr (hidx _ (getD_lt_mem idx a ha 0)))
    _ (List.mem_range.mpr (hidx _ (getD_lt_mem idx b hb 0)))

/-! ### Lemmas about `zip5` -/

theorem zip5_length {A B C D E : Type} (l1 : List A) (l2 : List B) (l3 : List C)
    (l4 : List D) (l5 : List E) :
    (zip5 l1 l2 l3 l4 l5).length =
      min l1.length (min l2.length (min l3.length (min l4.length l5.length))) := by
  simp [zip5, List.length_zipWith, List.length_zip]

theorem zip5_getElem {A B C D E : Type} {l1 : List A} {l2 : List B} {l3 : List C}
    {l4 : List D} {l5 : List E} {j : Nat}
    (h1 : j < l1.length) (h2 : j < l2.length) (h3 : j < l3.length)
    (h4 : j < l4.length) (h5 : j < l5.length) :
    (zip5 l1 l2 l3 l4 l5).get ⟨j, by rw [zip5_length]; omega⟩ =
      (l1.get ⟨j, h1⟩, l2.get ⟨j, h2⟩, l3.get ⟨j, h3⟩, l4.get ⟨j, h4⟩, l5.get ⟨j, h5⟩) := by
  simp [zip5, List.getElem_zipWith, List.getElem_zip]

theorem zip5_map_first {A B C D E : Type} {l1 : List A} {l2 : List B} {l3 : List C}
    {l4 : List D} {l5 : List E}
    (h2 : l2.length = l1.length) (h3 : l3.length = l1.length)
    (h4 : l4.length = l1.length) (h5 : l5.length = l1.length) :
    (zip5 l1 l2 l3 l4 l5).map (fun r => r.1) = l1 := by
  apply List.ext_getElem (by rw [List.length_map, zip5_length]; omega)
  intro i hi1 hi2
  rw [List.getElem_map]
  have e := @zip5_getElem A B C D E l1 l2 l3 l4 l5 i hi2
    (by omega) (by omega) (by omega) (by omega)
  simp only [List.get_eq_getElem] at e
  rw [e]

theorem zip5_map_second {A B C D E : Type} {l1 : List A} {l2 : List B} {l3 : List C}
    {l4 : List D} {l5 : List E}
    (h2 : l2.length = l1.length) (h3 : l3.length = l1.length)
    (h4 : l4.length = l1.length) (h5 : l5.length = l1.length) :
    (zip5 l1 l2 l3 l4 l5).map (fun r => r.2.1) = l2 := by
  apply List.ext_getElem (by rw [List.length_map, zip5_length]; omega)
  intro i hi1 hi2
  rw [List.getElem_map]
  have hi : i < l1.length := by omega
  have e := @zip5_getElem A B C D E l1 l2 l3 l4 l5 i hi
    (by omega) (by omega) (by omega) (by omega)
  simp only [List.get_eq_getElem] at e
  rw [e]

theorem zip5_map_fourth {A B C D E : Type} {l1 : List A} {l2 : List B} {l3 : List C}
    {l4 : List D} {l5 : List E}
    (h2 : l2.length = l1.length) (h3 : l3.length = l1.length)
    (h4 : l4.length = l1.length) (h5 : l5.length = l1.length) :
    (zip5 l1 l2 l3 l4 l5).map (fun r => r.2.2.2.1) = l4 := by
  apply List.ext_getElem (by rw [List.length_map, zip5_length]; omega)
  intro i hi1 hi2
  rw [List.getElem_map]
  have hi : i < l1.length := by omega
  have e := @zip5_getElem A B C D E l1 l2 l3 l4 l5 i hi
    (by omega) (by omega) (by omega) (by omega)
  simp only [List.get_eq_getElem] at e
  rw [e]

theorem zip5_getD {A B C D E : Type} {l1 : List A} {l2 : List B} {l3 : List C}
    {l4 : List D} {l5 : List E} {j : Nat} (d : A × B × C × D × E)
    (d1 : A) (d2 : B) (d3 : C) (d4 : D) (d5 : E)
    (h1 : j < l1.length) (h2 : j < l2.length) (h3 : j < l3.length)
    (h4 : j < l4.length) (h5 : j < l5.length) :
    (zip5 l1 l2 l3 l4 l5).getD j d =
      (l1.getD j d1, l2.getD j d2, l3.getD j d3, l4.getD j d4, l5.getD j d5) := by
  have hlen : j < (zip5 l1 l2 l3 l4 l5).length := by rw [zip5_length]; omega
  rw [List.getD_eq_getElem?_getD, List.getElem?_eq_getElem hlen]
  simp only [List.getD_eq_getElem?_getD, List.getElem?_eq_getElem h1,
    List.getElem?_eq_getElem h2, List.getElem?_eq_getElem h3, List.getElem?_eq_getElem h4,
    List.getElem?_eq_getElem h5, Option.getD_some]
  have := zip5_getElem h1 h2 h3 h4 h5
  simpa using this

/-! ### Claim theorems (C5, C6, C7, C8) -/

/-- C5: the code performs no emptiness check on the phenotype/genotype accession
intersection.  On an input whose intersection is empty every stage is total and
simply produces empty matrices (`Y`, `G`, `K` all empty, no SNP retained), and
the pipeline proceeds to hand them to the external scan instead of aborting
with a configuration error. -/
theorem C5_empty_intersection_proceeds :
    acn_genotyped [1] [2] = ([] : List Nat) ∧
    acn_order [1] [2] = ([] : List Nat) ∧
    Ymat [((1 : Nat), (10 : ℚ))] [2] = [] ∧
    Gmat [1] [2] [[1]] MAF_thrs = [] ∧
    Kmat [1] [2] [2] [[1]] = [] ∧
    SNP_indices MAF_thrs 0 (Gsub [[1]] []) = [] := by
  have hg : Gsub [[1]] [] = [[]] := rfl
  have hmaf : MAF 0 [[]] = [0] := by norm_num [MAF, MAC, AC0, AC1]
  refine ⟨by decide, by decide, by decide, by decide, by decide, ?_⟩
  rw [hg]
  norm_num [SNP_indices, hmaf, List.filter_cons, MAF_thrs, List.range_succ]

/-- C6: the code performs no check for the MAF filter retaining zero SNPs.  On a
genotype matrix where every SNP is monomorphic (MAF 0 < threshold) it computes
an empty retained-index list, an empty filtered matrix, and the writer then
assembles a header-only, zero-row result table instead of surfacing an error. -/
theorem C6_empty_filter_proceeds :
    SNP_indices MAF_thrs 3 [[0, 0, 0], [0, 0, 0]] = [] ∧
    SNPs_MAF MAF_thrs 3 [[0, 0, 0], [0, 0, 0]] = [] ∧
    Gfiltered MAF_thrs 3 [[0, 0, 0], [0, 0, 0]] = [] ∧
    (writer_corrected [2] [100, 200] (SNP_indices MAF_thrs 3 [[0, 0, 0], [0, 0, 0]])
        (SNPs_MAF MAF_thrs 3 [[0, 0, 0], [0, 0, 0]]) [] []).rows = [] ∧
    (writer_corrected [2] [100, 200] (SNP_indices MAF_thrs 3 [[0, 0, 0], [0, 0, 0]])
        (SNPs_MAF MAF_thrs 3 [[0, 0, 0], [0, 0, 0]]) [] []).columns =
      ["chr", "pos", "pvalue", "maf", "GVE"] := by
  have hmaf : MAF 3 [[0, 0, 0], [0, 0, 0]] = [0, 0] := by norm_num [MAF, MAC, AC0, AC1]
  have hr : List.range 2 = [0, 1] := rfl
  have hidx : SNP_indices MAF_thrs 3 [[0, 0, 0], [0, 0, 0]] = [] := by
    norm_num [SNP_indices, hmaf, hr, List.filter_cons, MAF_thrs]
  refine ⟨hidx, ?_, ?_, ?_, rfl⟩
  · simp [SNPs_MAF, hidx]
  · simp [Gfiltered, hidx]
  · simp [writer_corrected, hidx, chromosomes, positionsOf, zip5]

/-- C7, counterexample: the effect-size column of the written table is named
`GVE`, not `effect_size`, so the output columns are not
`{chr, pos, pvalue, maf, effect_size}` as claimed. -/
theorem C7_columns_counterexample :
    ¬ ((writer_corrected [] [] [] [] [] []).columns =
      ["chr", "pos", "pvalue", "maf", "effect_size"]) := by
  decide

/-- C7 (amended): each output file is a flat table with exactly the columns
`{chr, pos, pvalue, maf, GVE}` (the effect-size column is labeled `GVE`), no
row-index column, one row per SNP surviving the MAF filter, in the same order
as the retained SNP index list. -/
theorem C7_output_schema (chrEnds positions_all : List ℤ) (snpIdx : List Nat)
    (mafs pvalues effsizes : List ℚ)
    (hp : pvalues.length = snpIdx.length) (hm : mafs.length = snpIdx.length)
    (he : effsizes.length = snpIdx.length) :
    (writer_corrected chrEnds positions_all snpIdx mafs pvalues effsizes).columns =
      ["chr", "pos", "pvalue", "maf", "GVE"] ∧
    (writer_corrected chrEnds positions_all snpIdx mafs pvalues effsizes).hasIndexColumn
      = false ∧
    (writer_corrected chrEnds positions_all snpIdx mafs pvalues effsizes).rows.length =
      snpIdx.length ∧
    ∀ j, j < snpIdx.length →
      (writer_corrected chrEnds positions_all snpIdx mafs pvalues effsizes).rows.getD j
          (0, 0, 0, 0, 0) =
        ((chromosomes chrEnds snpIdx).getD j 0,
          (positionsOf positions_all snpIdx).getD j 0,
          pvalues.getD j 0, mafs.getD j 0, effsizes.getD j 0) := by
  have hc : (chromosomes chrEnds snpIdx).length = snpIdx.length := List.length_map _ _
  have hpos : (positionsOf positions_all snpIdx).length = snpIdx.length := List.length_map _ _
  refine ⟨rfl, rfl, ?_, ?_⟩
  · show (zip5 _ _ _ _ _).length = _
    rw [zip5_length, hc, hpos, hp, hm, he]
    omega
  · intro j hj
    exact zip5_getD (0, 0, 0, 0, 0) 0 0 0 0 0
      (by omega) (by omega) (by omega) (by omega) (by omega)

/-- C7 witness: the amended schema at a one-SNP instance. -/
theorem C7_output_schema_witness :
    (([(1 : ℚ) / 10].length = [(0 : Nat)].length ∧
      [(1 : ℚ) / 2].length = [(0 : Nat)].length ∧
      [(2 : ℚ)].length = [(0 : Nat)].length) ∧
     ((writer_corrected [5] [7] [0] [1 / 2] [1 / 10] [2]).columns =
        ["chr", "pos", "pvalue", "maf", "GVE"] ∧
      (writer_corrected [5] [7] [0] [1 / 2] [1 / 10] [2]).hasIndexColumn = false ∧
      (writer_corrected [5] [7] [0] [1 / 2] [1 / 10] [2]).rows.length = [(0 : Nat)].length ∧
      ∀ j, j < [(0 : Nat)].length →
        (writer_corrected [5] [7] [0] [1 / 2] [1 / 10] [2]).rows.getD j (0, 0, 0, 0, 0) =
          ((chromosomes [5] [0]).getD j 0, (positionsOf [7] [0]).getD j 0,
            ([(1 : ℚ) / 10]).getD j 0, ([(1 : ℚ) / 2]).getD j 0, ([(2 : ℚ)]).getD j 0))) :=
  ⟨⟨by decide, by decide, by decide⟩,
    C7_output_schema [5] [7] [0] [1 / 2] [1 / 10] [2] (by decide) (by decide) (by decide)⟩

/-- C8: the corrected-scan writer and the uncorrected-scan writer, run over the
same retained SNP index list, boundary table, position array, and MAF values,
produce identical `chr`, `pos`, and `maf` columns (and identical headers); only
the `pvalue`/`GVE` inputs differ between the two files. -/
theorem C8_writer_agreement (chrEnds positions_all : List ℤ) (snpIdx : List Nat)
    (mafs pv1 ef1 pv2 ef2 : List ℚ)
    (hp1 : pv1.length = snpIdx.length) (he1 : ef1.length = snpIdx.length)
    (hp2 : pv2.length = snpIdx.length) (he2 : ef2.length = snpIdx.length)
    (hm : mafs.length = snpIdx.length) :
    (writer_corrected chrEnds positions_all snpIdx mafs pv1 ef1).columns =
      (writer_nc chrEnds positions_all snpIdx mafs pv2 ef2).columns ∧
    (writer_corrected chrEnds positions_all snpIdx mafs pv1 ef1).rows.map
        (fun r => r.1) =
      (writer_nc chrEnds positions_all snpIdx mafs pv2 ef2).rows.map (fun r => r.1) ∧
    (writer_corrected chrEnds positions_all snpIdx mafs pv1 ef1).rows.map
        (fun r => r.2.1) =
      (writer_nc chrEnds positions_all snpIdx mafs pv2 ef2).rows.map (fun r => r.2.1) ∧
    (writer_corrected chrEnds positions_all snpIdx mafs pv1 ef1).rows.map
        (fun r => r.2.2.2.1) =
      (writer_nc chrEnds positions_all snpIdx mafs pv2 ef2).rows.map
        (fun r => r.2.2.2.1) := by
  have hc : (chromosomes chrEnds snpIdx).length = snpIdx.length := List.length_map _ _
  have hpos : (positionsOf positions_all snpIdx).length = snpIdx.length := List.length_map _ _
  refine ⟨rfl, ?_, ?_, ?_⟩
  · exact (zip5_map_first (by omega) (by omega) (by omega) (by omega)).trans
      (zip5_map_first (by omega) (by omega) (by omega) (by omega)).symm
  · exact (zip5_map_second (by omega) (by omega) (by omega) (by omega)).trans
      (zip5_map_second (by omega) (by omega) (by omega) (by omega)).symm
  · exact (zip5_map_fourth (by omega) (by omega) (by omega) (by omega)).trans
      (zip5_map_fourth (by omega) (by omega) (by omega) (by omega)).symm

/-- C8 witness: the two writers agree on `chr`, `pos`, `maf` at a one-SNP
instance with different p-values and effect sizes. -/
theorem C8_writer_agreement_witness :
    (([(1 : ℚ) / 10].length = [(0 : Nat)].length ∧
      [(2 : ℚ)].length = [(0 : Nat)].length ∧
      [(3 : ℚ) / 10].length = [(0 : Nat)].length ∧
      [(4 : ℚ)].length = [(0 : Nat)].length ∧
      [(1 : ℚ) / 2].length = [(0 : Nat)].length) ∧
     ((writer_corrected [5] [7] [0] [1 / 2] [1 / 10] [2]).columns =
        (writer_nc [5] [7] [0] [1 / 2] [3 / 10] [4]).columns ∧
      (writer_corrected [5] [7] [0] [1 / 2] [1 / 10] [2]).rows.map (fun r => r.1) =
        (writer_nc [5] [7] [0] [1 / 2] [3 / 10] [4]).rows.map (fun r => r.1) ∧
      (writer_corrected [5] [7] [0] [1 / 2] [1 / 10] [2]).rows.map (fun r => r.2.1) =
        (writer_nc [5] [7] [0] [1 / 2] [3 / 10] [4]).rows.map (fun r => r.2.1) ∧
      (writer_corrected [5] [7] [0] [1 / 2] [1 / 10] [2]).rows.map (fun r => r.2.2.2.1) =
        (writer_nc [5] [7] [0] [1 / 2] [3 / 10] [4]).rows.map (fun r => r.2.2.2.1))) :=
  ⟨⟨by decide, by decide, by decide, by decide, by decide⟩,
    C8_writer_agreement [5] [7] [0] [1 / 2] [1 / 10] [2] [3 / 10] [4]
      (by decide) (by decide) (by decide) (by decide) (by decide)⟩

/-! ### Lemmas for the MAF filter (C3) -/

theorem zipWith_map_same {β γ : Type _} (f g : β → γ) (h : γ → γ → γ) (l : List β) :
    List.zipWith h (l.map f) (l.map g) = l.map (fun x => h (f x) (g x)) := by
  induction l with
  | nil => rfl
  | cons a l ih => simp [ih]

/-- The per-SNP MAF list is the row-wise `min(N - sum, sum) / N` map. -/
theorem MAF_eq_map_rowMAF (n : Nat) (G : List (List ℤ)) : MAF n G = G.map (rowMAF n) := by
  unfold MAF MAC AC0 AC1 rowMAF
  rw [List.map_map, zipWith_map_same, List.map_map]
  rfl

/-- On a 0/1 row, the allele-count sum equals the number of 1 entries. -/
theorem sum_eq_onesCount (row : List ℤ) (hbin : ∀ x ∈ row, x = 0 ∨ x = 1) :
    row.sum = (onesCount row : ℤ) := by
  induction row with
  | nil => rfl
  | cons a l ih =>
    have ha := hbin a (List.mem_cons_self a l)
    have ih2 := ih (fun x hx => hbin x (List.mem_cons_of_mem a hx))
    rcases ha with rfl | rfl <;>
      simp [onesCount, List.countP_cons, List.sum_cons, ih2] <;>
      push_cast <;> omega

/-- On a binary row of length `N`, the code's per-row MAF formula agrees with
the spec formula `min(k, N - k) / N` where `k` is the count of 1 calls. -/
theorem rowMAF_eq_spec (n : Nat) (row : List ℤ) (hlen : row.length = n)
    (hbin : ∀ x ∈ row, x = 0 ∨ x = 1) : rowMAF n row = specRowMAF n row := by
  have hsum : row.sum = (onesCount row : ℤ) := sum_eq_onesCount row hbin
  have hle : onesCount row ≤ n := by
    rw [← hlen]
    exact List.countP_le_length _
  unfold rowMAF specRowMAF
  rw [hsum]
  congr 1
  rw [Nat.cast_min, Nat.cast_sub hle]
  push_cast
  rw [min_comm]

theorem filter_range_map_getD {β : Type _} (l : List β) (p : β → Bool) (d : β) :
    ((List.range l.length).filter (fun i => p (l.getD i d))).map (fun i => l.getD i d) =
      l.filter p := by
  induction l with
  | nil => rfl
  | cons a l ih =>
    rw [List.length_cons, List.range_succ_eq_map, List.filter_cons]
    by_cases hpa : p a
    · simp only [List.getD_cons_zero, hpa, if_true, List.map_cons, List.filter_map,
        List.map_map, List.filter_cons]
      refine congrArg (a :: ·) ?_
      simpa [Function.comp_def, List.getElem?_cons_succ] using ih
    · simp only [List.getD_cons_zero, hpa, if_false, List.filter_map, List.map_map,
        List.filter_cons]
      simpa [Function.comp_def, List.getElem?_cons_succ] using ih

/-- C3: for every binary SNP × accession matrix over `N` aligned accessions, the
computed MAF of a row with `k` ones is `min(k, N - k) / N` (all-0 and all-1 rows
both yield 0); a row is retained exactly when its MAF reaches the threshold;
the retained rows keep their original relative order (the filtered matrix is
the literal `filter` of the input, hence a sublist); and the MAF values passed
downstream are the very values computed for the retained rows. -/
theorem C3_maf_filter (thr : ℚ) (n : Nat) (G : List (List ℤ))
    (hn : 0 < n)
    (hrect : ∀ row ∈ G, row.length = n)
    (hbin : ∀ row ∈ G, ∀ x ∈ row, x = 0 ∨ x = 1) :
    MAF n G = G.map (specRowMAF n) ∧
    (∀ row ∈ G, (∀ x ∈ row, x = 0) → rowMAF n row = 0) ∧
    (∀ row ∈ G, (∀ x ∈ row, x = 1) → rowMAF n row = 0) ∧
    (∀ i, i ∈ SNP_indices thr n G ↔ i < G.length ∧ thr ≤ rowMAF n (G.getD i [])) ∧
    Gfiltered thr n G = G.filter (fun row => decide (thr ≤ rowMAF n row)) ∧
    List.Sublist (Gfiltered thr n G) G ∧
    SNPs_MAF thr n G = (Gfiltered thr n G).map (rowMAF n) := by
  have hmafmap : MAF n G = G.map (rowMAF n) := MAF_eq_map_rowMAF n G
  have hgetd : ∀ i, i < G.length → (MAF n G).getD i 0 = rowMAF n (G.getD i []) := by
    intro i hil
    rw [hmafmap]
    exact getD_map_lt (rowMAF n) G i hil [] 0
  have hGf : Gfiltered thr n G = G.filter (fun row => decide (thr ≤ rowMAF n row)) := by
    unfold Gfiltered SNP_indices
    rw [List.filter_congr (q := fun i => decide (thr ≤ rowMAF n (G.getD i [])))
      (fun i hi => by rw [hgetd i (List.mem_range.mp hi)])]
    exact filter_range_map_getD G (fun row => decide (thr ≤ rowMAF n row)) []
  refine ⟨?_, ?_, ?_, ?_, hGf, ?_, ?_⟩
  · rw [hmafmap]
    exact List.map_congr_left (fun row hrow => rowMAF_eq_spec n row (hrect row hrow)
      (hbin row hrow))
  · intro row hrow h0
    have hsum : row.sum = 0 := List.sum_eq_zero h0
    unfold rowMAF
    rw [hsum, sub_zero]
    rw [min_eq_right (by omega : (0 : ℤ) ≤ (n : ℤ))]
    simp
  · intro row hrow h1
    have hsum : row.sum = (n : ℤ) := by
      have := List.sum_eq_card_nsmul row 1 h1
      rw [this, hrect row hrow]
      simp
    unfold rowMAF
    rw [hsum, sub_self]
    rw [min_eq_left (by omega : (0 : ℤ) ≤ (n : ℤ))]
    simp
  · intro i
    constructor
    · intro hi
      have h2 := List.mem_filter.mp hi
      have hil : i < G.length := List.mem_range.mp h2.1
      refine ⟨hil, ?_⟩
      have h3 := of_decide_eq_true h2.2
      rwa [hgetd i hil] at h3
    · rintro ⟨hil, hle⟩
      refine List.mem_filter.mpr ⟨List.mem_range.mpr hil, ?_⟩
      rw [hgetd i hil]
      exact decide_eq_true hle
  · rw [hGf]
    exact List.filter_sublist G
  · unfold SNPs_MAF Gfiltered
    rw [List.map_map]
    refine List.map_congr_left ?_
    intro i hi
    have hil : i < G.length := List.mem_range.mp (List.mem_filter.mp hi).1
    simp only [Function.comp]
    exact hgetd i hil

/-- C3 witness: the MAF filter characterization at a concrete 4 × 3 binary
matrix with the default threshold. -/
theorem C3_maf_filter_witness :
    ((0 : Nat) < 3 ∧
     (∀ row ∈ [[1, 0, 0], [0, 0, 0], [(1 : ℤ), 1, 1], [1, 1, 0]], row.length = 3) ∧
     (∀ row ∈ [[1, 0, 0], [0, 0, 0], [(1 : ℤ), 1, 1], [1, 1, 0]], ∀ x ∈ row,
       x = 0 ∨ x = 1)) ∧
    (MAF 3 [[1, 0, 0], [0, 0, 0], [(1 : ℤ), 1, 1], [1, 1, 0]] =
        ([[1, 0, 0], [0, 0, 0], [(1 : ℤ), 1, 1], [1, 1, 0]]).map (specRowMAF 3) ∧
     (∀ row ∈ [[1, 0, 0], [0, 0, 0], [(1 : ℤ), 1, 1], [1, 1, 0]],
       (∀ x ∈ row, x = 0) → rowMAF 3 row = 0) ∧
     (∀ row ∈ [[1, 0, 0], [0, 0, 0], [(1 : ℤ), 1, 1], [1, 1, 0]],
       (∀ x ∈ row, x = 1) → rowMAF 3 row = 0) ∧
     (∀ i, i ∈ SNP_indices MAF_thrs 3 [[1, 0, 0], [0, 0, 0], [(1 : ℤ), 1, 1], [1, 1, 0]] ↔
       i < ([[1, 0, 0], [0, 0, 0], [(1 : ℤ), 1, 1], [1, 1, 0]]).length ∧
       MAF_thrs ≤ rowMAF 3
         (([[1, 0, 0], [0, 0, 0], [(1 : ℤ), 1, 1], [1, 1, 0]]).getD i [])) ∧
     Gfiltered MAF_thrs 3 [[1, 0, 0], [0, 0, 0], [(1 : ℤ), 1, 1], [1, 1, 0]] =
       ([[1, 0, 0], [0, 0, 0], [(1 : ℤ), 1, 1], [1, 1, 0]]).filter
         (fun row => decide (MAF_thrs ≤ rowMAF 3 row)) ∧
     List.Sublist (Gfiltered MAF_thrs 3 [[1, 0, 0], [0, 0, 0], [(1 : ℤ), 1, 1], [1, 1, 0]])
       [[1, 0, 0], [0, 0, 0], [(1 : ℤ), 1, 1], [1, 1, 0]] ∧
     SNPs_MAF MAF_thrs 3 [[1, 0, 0], [0, 0, 0], [(1 : ℤ), 1, 1], [1, 1, 0]] =
       (Gfiltered MAF_thrs 3 [[1, 0, 0], [0, 0, 0], [(1 : ℤ), 1, 1], [1, 1, 0]]).map
         (rowMAF 3)) :=
  ⟨⟨by decide, by decide, by decide⟩,
    C3_maf_filter MAF_thrs 3 [[1, 0, 0], [0, 0, 0], [(1 : ℤ), 1, 1], [1, 1, 0]]
      (by decide) (by decide) (by decide)⟩

/-! ### Lemmas for the accession aligner (C4, C1) -/

theorem getD_eq_get {β : Type _} (l : List β) (j : Nat) (hj : j < l.length) (d : β) :
    l.getD j d = l.get ⟨j, hj⟩ := by
  rw [List.getD_eq_getElem?_getD, List.getElem?_eq_getElem hj]
  rfl

section AlignerLemmas

variable {α : Type} [DecidableEq α] [Inhabited α]

theorem npWhereFirst_lt_length {src : List α} {a : α} (ha : a ∈ src) :
    npWhereFirst src a < src.length :=
  List.findIdx_lt_length_of_exists ⟨a, ha, by simp⟩

theorem getD_npWhereFirst {src : List α} {a : α} (ha : a ∈ src) (d : α) :
    src.getD (npWhereFirst src a) d = a := by
  have hlt := npWhereFirst_lt_length ha
  have hfound := @List.findIdx_getElem _ (fun x => decide (x = a)) src hlt
  rw [getD_eq_get src _ hlt]
  simpa using hfound

theorem npWhereFirst_eq_of_getD {src : List α} (hnd : src.Nodup) {i : Nat}
    (hi : i < src.length) (d : α) : npWhereFirst src (src.getD i d) = i := by
  have hgd : src.getD i d = src.get ⟨i, hi⟩ := getD_eq_get src i hi d
  unfold npWhereFirst
  rw [List.findIdx_eq hi]
  refine ⟨by rw [hgd]; simp, ?_⟩
  intro j hji
  simp only [decide_eq_false_iff_not]
  intro hEq
  rw [hgd] at hEq
  have := (hnd.getElem_inj_iff).mp hEq
  omega

theorem mem_map_npWhereFirst {src keys : List α} (hsrc : src.Nodup)
    (hmem : ∀ a ∈ keys, a ∈ src) (i : Nat) :
    i ∈ keys.map (npWhereFirst src) ↔ i < src.length ∧ src.getD i default ∈ keys := by
  constructor
  · intro hmemi
    obtain ⟨a, ha, rfl⟩ := List.mem_map.mp hmemi
    have has : a ∈ src := hmem a ha
    refine ⟨npWhereFirst_lt_length has, ?_⟩
    rw [getD_npWhereFirst has]
    exact ha
  · rintro ⟨hi, hk⟩
    exact List.mem_map.mpr ⟨src.getD i default, hk, npWhereFirst_eq_of_getD hsrc hi default⟩

theorem nodup_map_npWhereFirst {src keys : List α} (hkeys : keys.Nodup)
    (hmem : ∀ a ∈ keys, a ∈ src) : (keys.map (npWhereFirst src)).Nodup := by
  refine hkeys.map_on ?_
  intro x hx y hy hxy
  have h1 := getD_npWhereFirst (hmem x hx) default
  have h2 := getD_npWhereFirst (hmem y hy) default
  rw [← h1, ← h2, hxy]

theorem pysort_perm (l : List Nat) : List.Perm (pysort l) l :=
  List.perm_insertionSort _ l

theorem pysort_sorted (l : List Nat) : (pysort l).Pairwise (· ≤ ·) :=
  List.sorted_insertionSort _ l

theorem sorted_le_filter_range (n : Nat) (p : Nat → Bool) :
    ((List.range n).filter p).Pairwise (· ≤ ·) :=
  (List.pairwise_le_range n).filter p

/-- Python's sorted list of the first-occurrence indices of `keys` inside a
duplicate-free `src` is exactly the ascending list of the positions in `src`
whose element belongs to `keys`. -/
theorem sorted_indices_eq_filter_range {src keys : List α} (hsrc : src.Nodup)
    (hkeys : keys.Nodup) (hmem : ∀ a ∈ keys, a ∈ src) :
    pysort (keys.map (npWhereFirst src)) =
      (List.range src.length).filter (fun i => decide (src.getD i default ∈ keys)) := by
  have hnodup1 : (keys.map (npWhereFirst src)).Nodup := nodup_map_npWhereFirst hkeys hmem
  have hnodup2 : ((List.range src.length).filter
      (fun i => decide (src.getD i default ∈ keys))).Nodup :=
    (List.nodup_range src.length).filter _
  have hiff : ∀ i, i ∈ keys.map (npWhereFirst src) ↔
      i ∈ (List.range src.length).filter (fun i => decide (src.getD i default ∈ keys)) := by
    intro i
    rw [mem_map_npWhereFirst hsrc hmem, List.mem_filter, List.mem_range]
    simp
  have hperm : List.Perm (pysort (keys.map (npWhereFirst src)))
      ((List.range src.length).filter (fun i => decide (src.getD i default ∈ keys))) :=
    (pysort_perm _).trans (List.perm_of_nodup_nodup_toFinset_eq hnodup1 hnodup2
      (List.toFinset.ext hiff))
  exact List.eq_of_perm_of_sorted hperm (pysort_sorted _) (sorted_le_filter_range _ _)

/-- Reading `src` back at those sorted indices yields the members of `keys` in
`src` order. -/
theorem map_getD_sorted_indices {src keys : List α} (hsrc : src.Nodup)
    (hkeys : keys.Nodup) (hmem : ∀ a ∈ keys, a ∈ src) :
    (pysort (keys.map (npWhereFirst src))).map (fun i => src.getD i default) =
      src.filter (fun a => decide (a ∈ keys)) := by
  rw [sorted_indices_eq_filter_range hsrc hkeys hmem]
  exact filter_range_map_getD src (fun a => decide (a ∈ keys)) default

/-- Closed form of `acn_order`: the genotype accessions that are phenotyped, in
genotype-source order. -/
theorem acn_order_eq_filter {phenoIdx genoAcc : List α} (hP : phenoIdx.Nodup)
    (hG : genoAcc.Nodup) :
    acn_order phenoIdx genoAcc = genoAcc.filter (fun a => decide (a ∈ phenoIdx)) := by
  unfold acn_order acn_indices acn_genotyped
  rw [map_getD_sorted_indices hG (hP.filter _)
    (fun a ha => of_decide_eq_true (List.mem_filter.mp ha).2)]
  apply List.filter_congr
  intro a ha
  simp only [decide_eq_decide, List.mem_filter]
  simp [ha]

theorem acn_order_nodup {phenoIdx genoAcc : List α} (hP : phenoIdx.Nodup)
    (hG : genoAcc.Nodup) : (acn_order phenoIdx genoAcc).Nodup := by
  rw [acn_order_eq_filter hP hG]
  exact hG.filter _

theorem acn_order_length_card {phenoIdx genoAcc : List α} (hP : phenoIdx.Nodup)
    (hG : genoAcc.Nodup) :
    (acn_order phenoIdx genoAcc).length = (phenoIdx.toFinset ∩ genoAcc.toFinset).card := by
  rw [acn_order_eq_filter hP hG]
  have h1 : (genoAcc.filter (fun a => decide (a ∈ phenoIdx))).Nodup := hG.filter _
  rw [← List.toFinset_card_of_nodup h1, List.toFinset_filter]
  congr 1
  ext a
  simp only [Finset.mem_filter, Finset.mem_inter, List.mem_toFinset, decide_eq_true_eq]
  exact ⟨fun h => ⟨h.2, h.1⟩, fun h => ⟨h.2, h.1⟩⟩

end AlignerLemmas

/-- C4: for a phenotype accession set `P` (duplicate-free) and a duplicate-free
genotype accession list `G_all`, `accession_order` is exactly the accessions of
`G_all` that are also in `P`, in `G_all` order; it is a subset of both, has
length `|P ∩ G_all|`, and lists every element exactly once. -/
theorem C4_accession_order {α : Type} [DecidableEq α] [Inhabited α]
    (phenoIdx genoAcc : List α) (hP : phenoIdx.Nodup) (hG : genoAcc.Nodup) :
    acn_order phenoIdx genoAcc = genoAcc.filter (fun a => decide (a ∈ phenoIdx)) ∧
    (∀ a ∈ acn_order phenoIdx genoAcc, a ∈ phenoIdx ∧ a ∈ genoAcc) ∧
    (acn_order phenoIdx genoAcc).length = (phenoIdx.toFinset ∩ genoAcc.toFinset).card ∧
    (acn_order phenoIdx genoAcc).Nodup := by
  refine ⟨acn_order_eq_filter hP hG, ?_, acn_order_length_card hP hG,
    acn_order_nodup hP hG⟩
  intro a ha
  rw [acn_order_eq_filter hP hG] at ha
  have h := List.mem_filter.mp ha
  exact ⟨of_decide_eq_true h.2, h.1⟩

/-- C4 witness: the aligner characterization at `P = [5, 3, 8]`,
`G_all = [8, 1, 5]` (aligned order `[8, 5]`). -/
theorem C4_accession_order_witness :
    (([5, 3, 8] : List Nat).Nodup ∧ ([8, 1, 5] : List Nat).Nodup) ∧
    (acn_order [5, 3, 8] [8, 1, 5] =
        ([8, 1, 5] : List Nat).filter (fun a => decide (a ∈ ([5, 3, 8] : List Nat))) ∧
      (∀ a ∈ acn_order [5, 3, 8] [8, 1, 5],
        a ∈ ([5, 3, 8] : List Nat) ∧ a ∈ ([8, 1, 5] : List Nat)) ∧
      (acn_order [5, 3, 8] [8, 1, 5]).length =
        (([5, 3, 8] : List Nat).toFinset ∩ ([8, 1, 5] : List Nat).toFinset).card ∧
      (acn_order [5, 3, 8] [8, 1, 5]).Nodup) :=
  ⟨⟨by decide, by decide⟩, C4_accession_order [5, 3, 8] [8, 1, 5] (by decide) (by decide)⟩

/-! ### Lemmas for the aligned triple (C1) -/

theorem map_getD_range {β γ : Type _} (l : List β) (f : β → γ) (d : β) :
    (List.range l.length).map (fun j => f (l.getD j d)) = l.map f := by
  induction l with
  | nil => rfl
  | cons a l ih =>
    rw [List.length_cons, List.range_succ_eq_map, List.map_cons, List.map_map]
    simp only [List.getD_cons_zero, Function.comp_def, Nat.succ_eq_add_one,
      List.getD_cons_succ]
    rw [ih, List.map_cons]

section C1Lemmas

variable {α : Type} [DecidableEq α] [Inhabited α]

/-- With duplicate-free phenotype keys, the `.loc` lookup returns the stored
trait value. -/
theorem lookupD_eq {pheno : List (α × ℚ)} (hnd : (pheno.map Prod.fst).Nodup) {a : α}
    {v : ℚ} (hmem : (a, v) ∈ pheno) : lookupD pheno a = v := by
  induction pheno with
  | nil => cases hmem
  | cons r rest ih =>
    obtain ⟨b, w⟩ := r
    rw [List.map_cons] at hnd
    have hnotin : ∀ x ∈ rest.map Prod.fst, b ≠ x := (List.pairwise_cons.mp hnd).1
    have hndrest : (rest.map Prod.fst).Nodup := (List.pairwise_cons.mp hnd).2
    by_cases hba : b = a
    · subst hba
      have hfind : List.find? (fun r => decide (r.1 = b)) ((b, w) :: rest) = some (b, w) :=
        List.find?_cons_of_pos _ (by simp)
      unfold lookupD
      rw [hfind]
      rcases List.mem_cons.mp hmem with heq | hmem2
      · injection heq with h1 h2
        exact h2.symm
      · exact absurd rfl (hnotin b (List.mem_map.mpr ⟨(b, v), hmem2, rfl⟩))
    · have hfind : List.find? (fun r => decide (r.1 = a)) ((b, w) :: rest) =
          List.find? (fun r => decide (r.1 = a)) rest :=
        List.find?_cons_of_neg _ (by simp [hba])
      have hmem2 : (a, v) ∈ rest := by
        rcases List.mem_cons.mp hmem with heq | h2
        · exact absurd (congrArg Prod.fst heq).symm hba
        · exact h2
      have hres := ih hndrest hmem2
      unfold lookupD at hres ⊢
      rw [hfind]
      exact hres

end C1Lemmas

/-- C1, counterexample: when the kinship source lists the shared accessions in a
different relative order than the genotype source, the subsetted `K` is aligned
to kinship-source order, not to the single ordered accession list that `Y` and
`G` follow.  With phenotype keys `[1, 2]`, genotype accessions `[1, 2]` (so the
aligned list is `[1, 2]`), kinship accessions `[2, 1]` and kinship matrix
`[[5, 0], [0, 7]]`, the code returns `K = [[5, 0], [0, 7]]` whose row 0 is
accession 2, while the claim requires row 0 to be accession 1
(`[[7, 0], [0, 5]]`). -/
theorem C1_counterexample :
    Kmat [1, 2] [1, 2] [2, 1] [[5, 0], [0, 7]] ≠
      (acn_order [1, 2] [1, 2]).map (fun a => (acn_order [1, 2] [1, 2]).map (fun b =>
        ((([[(5 : ℚ), 0], [0, 7]]).getD (npWhereFirst [2, 1] a) []).getD
          (npWhereFirst [2, 1] b) 0))) := by
  intro h
  have h0 := congrArg (fun m : List (List ℚ) => (m.getD 0 []).getD 0 0) h
  have h57 : (5 : ℚ) = 7 := h0
  norm_num at h57

/-- C1 (amended): under the claim's hypotheses (no duplicate accession IDs in
any source, kinship accessions a superset of the phenotyped-and-genotyped
accessions) plus the hypothesis the counterexample forces — the kinship source
lists the aligned accessions in the same relative order as the genotype
source — the three matrices reference the single ordered accession list
`acn_order`: its length is `N = |P ∩ G_all|`; `Y` has `N` rows of one trait
value each, row `j` holding the value of the `j`-th aligned accession; `G` is
row-for-row the retained SNP calls of the aligned accessions in that order
(shape `N × M`); and `K` is entry-for-entry the kinship of the aligned
accession pairs in that order (shape `N × N`). -/
theorem C1_aligned_triple {α : Type} [DecidableEq α] [Inhabited α]
    (pheno : List (α × ℚ)) (genoAcc kinAcc : List α)
    (snps : List (List ℤ)) (kinship : List (List ℚ)) (thr : ℚ)
    (hP : (pheno.map Prod.fst).Nodup) (hG : genoAcc.Nodup) (hK : kinAcc.Nodup)
    (hsup : ∀ a, a ∈ pheno.map Prod.fst → a ∈ genoAcc → a ∈ kinAcc)
    (horder : kinAcc.filter
        (fun a => decide (a ∈ acn_order (pheno.map Prod.fst) genoAcc)) =
      acn_order (pheno.map Prod.fst) genoAcc) :
    (acn_order (pheno.map Prod.fst) genoAcc).length =
      ((pheno.map Prod.fst).toFinset ∩ genoAcc.toFinset).card ∧
    (Ymat pheno genoAcc).length = (acn_order (pheno.map Prod.fst) genoAcc).length ∧
    (∀ r ∈ Ymat pheno genoAcc, r.length = 1) ∧
    (∀ j v, j < (acn_order (pheno.map Prod.fst) genoAcc).length →
      ((acn_order (pheno.map Prod.fst) genoAcc).getD j default, v) ∈ pheno →
      (Ymat pheno genoAcc).getD j [] = [v]) ∧
    Gmat (pheno.map Prod.fst) genoAcc snps thr =
      (acn_order (pheno.map Prod.fst) genoAcc).map (fun a =>
        (SNP_indices thr (acn_indices (pheno.map Prod.fst) genoAcc).length
            (Gsub snps (acn_indices (pheno.map Prod.fst) genoAcc))).map (fun s =>
          (snps.getD s []).getD (npWhereFirst genoAcc a) 0)) ∧
    Kmat (pheno.map Prod.fst) genoAcc kinAcc kinship =
      (acn_order (pheno.map Prod.fst) genoAcc).map (fun a =>
        (acn_order (pheno.map Prod.fst) genoAcc).map (fun b =>
          (kinship.getD (npWhereFirst kinAcc a) []).getD (npWhereFirst kinAcc b) 0)) ∧
    (Kmat (pheno.map Prod.fst) genoAcc kinAcc kinship).length =
      (acn_order (pheno.map Prod.fst) genoAcc).length ∧
    (∀ r ∈ Kmat (pheno.map Prod.fst) genoAcc kinAcc kinship,
      r.length = (acn_order (pheno.map Prod.fst) genoAcc).length) := by
  have hLnodup : (acn_order (pheno.map Prod.fst) genoAcc).Nodup := acn_order_nodup hP hG
  have hmemLG : ∀ a ∈ acn_order (pheno.map Prod.fst) genoAcc,
      a ∈ pheno.map Prod.fst ∧ a ∈ genoAcc := by
    intro a ha
    rw [acn_order_eq_filter hP hG] at ha
    have h := List.mem_filter.mp ha
    exact ⟨of_decide_eq_true h.2, h.1⟩
  have hmemLK : ∀ a ∈ acn_order (pheno.map Prod.fst) genoAcc, a ∈ kinAcc := fun a ha =>
    hsup a (hmemLG a ha).1 (hmemLG a ha).2
  have hImem : ∀ i ∈ acn_indices (pheno.map Prod.fst) genoAcc, i < genoAcc.length := by
    intro i hi
    have hi2 : i ∈ (acn_genotyped (pheno.map Prod.fst) genoAcc).map (npWhereFirst genoAcc) :=
      (pysort_perm _).mem_iff.mp hi
    obtain ⟨a, ha, rfl⟩ := List.mem_map.mp hi2
    exact npWhereFirst_lt_length (of_decide_eq_true (List.mem_filter.mp ha).2)
  have hnpI : ∀ i ∈ acn_indices (pheno.map Prod.fst) genoAcc,
      npWhereFirst genoAcc (genoAcc.getD i default) = i := fun i hi =>
    npWhereFirst_eq_of_getD hG (hImem i hi) default
  have hKL : (kin_indices (pheno.map Prod.fst) genoAcc kinAcc).map
      (fun i => kinAcc.getD i default) = acn_order (pheno.map Prod.fst) genoAcc := by
    show (pysort ((acn_order (pheno.map Prod.fst) genoAcc).map (npWhereFirst kinAcc))).map
      (fun i => kinAcc.getD i default) = _
    rw [map_getD_sorted_indices hK hLnodup hmemLK]
    exact horder
  have hKImem : ∀ i ∈ kin_indices (pheno.map Prod.fst) genoAcc kinAcc,
      i < kinAcc.length := by
    intro i hi
    have hi2 : i ∈ (acn_order (pheno.map Prod.fst) genoAcc).map (npWhereFirst kinAcc) :=
      (pysort_perm _).mem_iff.mp hi
    obtain ⟨a, ha, rfl⟩ := List.mem_map.mp hi2
    exact npWhereFirst_lt_length (hmemLK a ha)
  have hnpK : ∀ i ∈ kin_indices (pheno.map Prod.fst) genoAcc kinAcc,
      npWhereFirst kinAcc (kinAcc.getD i default) = i := fun i hi =>
    npWhereFirst_eq_of_getD hK (hKImem i hi) default
  have hY1 : ∀ r ∈ Ymat pheno genoAcc, r.length = 1 := by
    intro r hr
    obtain ⟨a, _, rfl⟩ := List.mem_map.mp hr
    rfl
  have hY2 : ∀ j v, j < (acn_order (pheno.map Prod.fst) genoAcc).length →
      ((acn_order (pheno.map Prod.fst) genoAcc).getD j default, v) ∈ pheno →
      (Ymat pheno genoAcc).getD j [] = [v] := by
    intro j v hj hmem
    unfold Ymat
    rw [getD_map_lt (fun a => [lookupD pheno a]) _ j hj default []]
    rw [lookupD_eq hP hmem]
  have hGmat : Gmat (pheno.map Prod.fst) genoAcc snps thr =
      (acn_order (pheno.map Prod.fst) genoAcc).map (fun a =>
        (SNP_indices thr (acn_indices (pheno.map Prod.fst) genoAcc).length
            (Gsub snps (acn_indices (pheno.map Prod.fst) genoAcc))).map (fun s =>
          (snps.getD s []).getD (npWhereFirst genoAcc a) 0)) := by
    have hR : (acn_order (pheno.map Prod.fst) genoAcc).map (fun a =>
        (SNP_indices thr (acn_indices (pheno.map Prod.fst) genoAcc).length
            (Gsub snps (acn_indices (pheno.map Prod.fst) genoAcc))).map (fun s =>
          (snps.getD s []).getD (npWhereFirst genoAcc a) 0)) =
        (acn_indices (pheno.map Prod.fst) genoAcc).map (fun i =>
          (SNP_indices thr (acn_indices (pheno.map Prod.fst) genoAcc).length
              (Gsub snps (acn_indices (pheno.map Prod.fst) genoAcc))).map (fun s =>
            (snps.getD s []).getD i 0)) := by
      unfold acn_order
      rw [List.map_map]
      apply List.map_congr_left
      intro i hi
      simp only [Function.comp_def]
      rw [hnpI i hi]
    rw [hR]
    show npTranspose (acn_indices (pheno.map Prod.fst) genoAcc).length
        (Gfiltered thr (acn_indices (pheno.map Prod.fst) genoAcc).length
          (Gsub snps (acn_indices (pheno.map Prod.fst) genoAcc))) = _
    unfold npTranspose
    rw [← map_getD_range (acn_indices (pheno.map Prod.fst) genoAcc) (fun i =>
      (SNP_indices thr (acn_indices (pheno.map Prod.fst) genoAcc).length
          (Gsub snps (acn_indices (pheno.map Prod.fst) genoAcc))).map (fun s =>
        (snps.getD s []).getD i 0)) 0]
    apply List.map_congr_left
    intro j hj
    have hjI : j < (acn_indices (pheno.map Prod.fst) genoAcc).length := List.mem_range.mp hj
    unfold Gfiltered
    rw [List.map_map]
    apply List.map_congr_left
    intro s hs
    unfold SNP_indices at hs
    have hsG : s < (Gsub snps (acn_indices (pheno.map Prod.fst) genoAcc)).length :=
      List.mem_range.mp (List.mem_filter.mp hs).1
    have hsnps : s < snps.length := by
      have hlen : (Gsub snps (acn_indices (pheno.map Prod.fst) genoAcc)).length =
          snps.length := List.length_map _ _
      omega
    simp only [Function.comp_def]
    rw [show (Gsub snps (acn_indices (pheno.map Prod.fst) genoAcc)).getD s [] =
        (acn_indices (pheno.map Prod.fst) genoAcc).map (fun i => (snps.getD s []).getD i 0)
      from getD_map_lt _ snps s hsnps [] []]
    exact getD_map_lt _ (acn_indices (pheno.map Prod.fst) genoAcc) j hjI 0 0
  have hKmat : Kmat (pheno.map Prod.fst) genoAcc kinAcc kinship =
      (acn_order (pheno.map Prod.fst) genoAcc).map (fun a =>
        (acn_order (pheno.map Prod.fst) genoAcc).map (fun b =>
          (kinship.getD (npWhereFirst kinAcc a) []).getD (npWhereFirst kinAcc b) 0)) := by
    conv_rhs => rw [← hKL]
    show submatrix kinship (kin_indices (pheno.map Prod.fst) genoAcc kinAcc) = _
    unfold submatrix
    rw [List.map_map]
    apply List.map_congr_left
    intro i hi
    simp only [Function.comp_def]
    rw [hnpK i hi]
    rw [List.map_map]
    apply List.map_congr_left
    intro j hj
    simp only [Function.comp_def]
    rw [hnpK j hj]
  refine ⟨acn_order_length_card hP hG, List.length_map _ _, hY1, hY2, hGmat, hKmat,
    ?_, ?_⟩
  · rw [hKmat]
    exact List.length_map _ _
  · intro r hr
    rw [hKmat] at hr
    obtain ⟨a, _, rfl⟩ := List.mem_map.mp hr
    exact List.length_map _ _

/-- C1 witness: the aligned-triple invariant instantiated at phenotype
`{1 ↦ 3, 2 ↦ 4}`, genotype accessions `[1, 2]`, kinship accessions `[1, 2, 9]`,
one SNP `[1, 0]` and a diagonal 3×3 kinship matrix. -/
theorem C1_aligned_triple_witness :
    (([((1 : Nat), (3 : ℚ)), (2, 4)].map Prod.fst).Nodup ∧
     ([1, 2] : List Nat).Nodup ∧ ([1, 2, 9] : List Nat).Nodup ∧
     (∀ a, a ∈ [((1 : Nat), (3 : ℚ)), (2, 4)].map Prod.fst → a ∈ ([1, 2] : List Nat) →
       a ∈ ([1, 2, 9] : List Nat)) ∧
     ([1, 2, 9] : List Nat).filter
         (fun a => decide (a ∈ acn_order ([((1 : Nat), (3 : ℚ)), (2, 4)].map Prod.fst)
           [1, 2])) =
       acn_order ([((1 : Nat), (3 : ℚ)), (2, 4)].map Prod.fst) [1, 2]) ∧
    ((acn_order ([((1 : Nat), (3 : ℚ)), (2, 4)].map Prod.fst) [1, 2]).length =
      (([((1 : Nat), (3 : ℚ)), (2, 4)].map Prod.fst).toFinset ∩
        ([1, 2] : List Nat).toFinset).card ∧
    (Ymat [((1 : Nat), (3 : ℚ)), (2, 4)] [1, 2]).length =
      (acn_order ([((1 : Nat), (3 : ℚ)), (2, 4)].map Prod.fst) [1, 2]).length ∧
    (∀ r ∈ Ymat [((1 : Nat), (3 : ℚ)), (2, 4)] [1, 2], r.length = 1) ∧
    (∀ j v, j < (acn_order ([((1 : Nat), (3 : ℚ)), (2, 4)].map Prod.fst) [1, 2]).length →
      ((acn_order ([((1 : Nat), (3 : ℚ)), (2, 4)].map Prod.fst) [1, 2]).getD j default, v) ∈
        [((1 : Nat), (3 : ℚ)), (2, 4)] →
      (Ymat [((1 : Nat), (3 : ℚ)), (2, 4)] [1, 2]).getD j [] = [v]) ∧
    Gmat ([((1 : Nat), (3 : ℚ)), (2, 4)].map Prod.fst) [1, 2] [[1, 0]] MAF_thrs =
      (acn_order ([((1 : Nat), (3 : ℚ)), (2, 4)].map Prod.fst) [1, 2]).map (fun a =>
        (SNP_indices MAF_thrs
            (acn_indices ([((1 : Nat), (3 : ℚ)), (2, 4)].map Prod.fst) [1, 2]).length
            (Gsub [[1, 0]]
              (acn_indices ([((1 : Nat), (3 : ℚ)), (2, 4)].map Prod.fst) [1, 2]))).map
          (fun s => (([[(1 : ℤ), 0]]).getD s []).getD (npWhereFirst [1, 2] a) 0)) ∧
    Kmat ([((1 : Nat), (3 : ℚ)), (2, 4)].map Prod.fst) [1, 2] [1, 2, 9]
        [[5, 0, 0], [0, 7, 0], [0, 0, 9]] =
      (acn_order ([((1 : Nat), (3 : ℚ)), (2, 4)].map Prod.fst) [1, 2]).map (fun a =>
        (acn_order ([((1 : Nat), (3 : ℚ)), (2, 4)].map Prod.fst) [1, 2]).map (fun b =>
          (([[(5 : ℚ), 0, 0], [0, 7, 0], [0, 0, 9]]).getD (npWhereFirst [1, 2, 9] a)
            []).getD (npWhereFirst [1, 2, 9] b) 0)) ∧
    (Kmat ([((1 : Nat), (3 : ℚ)), (2, 4)].map Prod.fst) [1, 2] [1, 2, 9]
        [[5, 0, 0], [0, 7, 0], [0, 0, 9]]).length =
      (acn_order ([((1 : Nat), (3 : ℚ)), (2, 4)].map Prod.fst) [1, 2]).length ∧
    (∀ r ∈ Kmat ([((1 : Nat), (3 : ℚ)), (2, 4)].map Prod.fst) [1, 2] [1, 2, 9]
        [[5, 0, 0], [0, 7, 0], [0, 0, 9]],
      r.length =
        (acn_order ([((1 : Nat), (3 : ℚ)), (2, 4)].map Prod.fst) [1, 2]).length)) :=
  ⟨⟨by decide, by decide, by decide,
    by
      intro a ha hg
      simp only [List.map_cons, List.map_nil, List.mem_cons, List.not_mem_nil,
        or_false] at ha
      rcases ha with rfl | rfl <;> decide,
    by decide⟩,
   C1_aligned_triple [((1 : Nat), (3 : ℚ)), (2, 4)] [1, 2] [1, 2, 9] [[1, 0]]
     [[5, 0, 0], [0, 7, 0], [0, 0, 9]] MAF_thrs (by decide) (by decide) (by decide)
     (by
       intro a ha hg
       simp only [List.map_cons, List.map_nil, List.mem_cons, List.not_mem_nil,
         or_false] at ha
       rcases ha with rfl | rfl <;> decide)
     (by decide)⟩

/-- C10 witness: symmetry of a concrete 3×3 kinship submatrix at indices `[2, 0]`. -/
theorem C10_submatrix_symmetric_witness :
    ((submatrix [[1, 2, 3], [2, 5, 6], [3, 6, 9]] [2, 0]).getD 0 []).getD 1 0 =
      ((submatrix [[1, 2, 3], [2, 5, 6], [3, 6, 9]] [2, 0]).getD 1 []).getD 0 0 :=
  C10_submatrix_symmetric [[1, 2, 3], [2, 5, 6], [3, 6, 9]] [2, 0]
    (by decide) (by decide) 0 1 (by decide) (by decide)

end GWAS
